import Mathlib

/-!
# Verification of the kube-hound application aggregation pipeline

A shallow embedding of `k8spurifier/application.py` (class `Application`):
service registration, per-service property application, Kubernetes /
Dockerfile / OpenAPI parsing, per-category deduplication of the resulting
application objects, cluster-config acquisition, and the analysis-scheduler
invocation.

Python dictionaries (`self.services`, `self.repositories`) are embedded as
association lists with Python-dict update semantics (updating an existing
key keeps its position, a new key is appended).  The external parsers
(`KubernetesConfigParser`, `DockerfileParser`, `OpenAPIParser`) are out of
scope of the repository and are embedded as oracle functions that either
return a list of objects or raise (`Except.error`).  A raised Python
exception is embedded as `Except.error` carrying the error together with
the `self` state at the raise point (Python exceptions do not roll back
mutations already performed on `self`).
-/

namespace KubeHound

/-- A service property mapping (an arbitrary key→value Python dict,
embedded by value). -/
abbrev Props := List (String × String)

/-- A Python `dict` keyed by strings, embedded as an association list in
insertion order. -/
abbrev Dict (α : Type) := List (String × α)

/-- Python `d[k]` lookup (as an `Option`): the value of the first (unique)
binding of `k`. -/
def Dict.get? {α : Type} : Dict α → String → Option α
  | [], _ => none
  | (k, v) :: rest, key => if k = key then some v else Dict.get? rest key

/-- Python `d[k] = v`: update the binding in place when `k` is present
(keeping its position), otherwise append it. -/
def Dict.set {α : Type} : Dict α → String → α → Dict α
  | [], key, v => [(key, v)]
  | (k, w) :: rest, key, v =>
    if k = key then (key, v) :: rest else (k, w) :: Dict.set rest key v

/-- Errors that abort `parse_application` (Python exceptions propagating
out of it): a `KeyError` on the `self.services` lookup (the configuration
error the design calls `UnknownServiceError`), a `KeyError` on the
`self.repositories` lookup (`UnknownRepositoryError`), or an exception
raised by one of the external parsers (`ParseError`). -/
inductive AggErr where
  | unknownService (name : String)
  | unknownRepository (name : String)
  | parseError (message : String)
deriving DecidableEq, Repr

/-- An `ApplicationObject` produced by a parser, with the attributes
`application.py` reads or writes: the originating artifact `path` (the
deduplication key) and the attached service-property snapshot. -/
structure ApplicationObject where
  path : String
  service_properties : Option Props := none
deriving DecidableEq, Repr

/-- A `Service` registry entry, with the attributes `application.py` uses:
the name, the optional property mapping, and the descriptor reference
(stored in the field named `dockerfile` in the source, and overwritten by
the OpenAPI branch as well). -/
structure Service where
  name : String
  properties : Option Props := none
  dockerfile : Option ApplicationObject := none
deriving DecidableEq, Repr

/-- An `AnalysisResult`, with the fields read by `show_results`. -/
structure AnalysisResult where
  generating_analysis : String
  smells_detected : List String
  description : String
deriving DecidableEq, Repr

/-- A repository handle: exposes artifact lookup by glob pattern
(`get_artifacts_by_regex`). -/
structure Repository where
  get_artifacts_by_regex : String → List String

/-- The `deployment['kubernetes']` section of the config: a repository id
and a glob. -/
structure KubernetesDeployment where
  repository : String
  glob : String
deriving DecidableEq, Repr

/-- One entry of the config's services section: name, repository id,
optional dockerfile path, optional openapi path, optional image name. -/
structure ServiceData where
  name : String
  repository : String
  dockerfile : Option String := none
  openapi : Option String := none
  image : Option String := none
deriving DecidableEq, Repr

/-- The loaded application config, as consumed by `parse_application`:
`deployment()` (only its optional `kubernetes` key is read), `services()`
and `properties()`. -/
structure ApplicationConfig where
  kubernetesDeployment : Option KubernetesDeployment := none
  services : List ServiceData := []
  properties : List (String × Props) := []

/-- The three external parsers, as oracle functions.  Each either returns
the list of parsed `ApplicationObject`s or raises (`Except.error`).  The
Kubernetes parser also receives the current services dict, the Dockerfile
parser the image name. -/
structure Parsers where
  kubernetes : Repository → String → Dict Service → Except String (List ApplicationObject)
  dockerfile : Repository → String → String → Except String (List ApplicationObject)
  openapi : Repository → String → Except String (List ApplicationObject)

/-- The mutable state of an `Application` instance (the fields of
`Application.__init__` that `parse_application`, `get_service`,
`load_kubernetes_cluster_config` and `run_analyses` touch).  The default
values are the ones set by `__init__`. -/
structure Application where
  application_objects : List ApplicationObject := []
  services : Dict Service := []
  analysis_results : List AnalysisResult := []
  run_static : Bool := true
  run_dynamic : Bool := true
deriving DecidableEq, Repr

/-- Lines 47–50: `for service_data in config_services: self.services[name] =
Service(name)` — one fresh `Service` entry per declared name. -/
def registerServices : List ServiceData → Dict Service → Dict Service
  | [], services => services
  | sd :: rest, services =>
    registerServices rest (Dict.set services sd.name {name := sd.name})

/-- Lines 52–54: `for service, properties in self.config.properties():
self.services[service].properties = properties`; a missing name raises
(`KeyError`, the design's `UnknownServiceError`).  The error carries the
dict as already updated by the earlier iterations (Python does not roll
back the mutations performed before the raise). -/
def applyProperties : List (String × Props) → Dict Service →
    Except (AggErr × Dict Service) (Dict Service)
  | [], services => .ok services
  | (serviceName, props) :: rest, services =>
    match Dict.get? services serviceName with
    | none => .error (.unknownService serviceName, services)
    | some s =>
      applyProperties rest (Dict.set services serviceName {s with properties := some props})

/-- Lines 62–69: for each matching file, run the Kubernetes parser and
append every resulting object to the accumulating objects list. -/
def parseKubernetesFiles (P : Parsers) (repository : Repository) (services : Dict Service) :
    List String → List ApplicationObject → Except AggErr (List ApplicationObject)
  | [], acc => .ok acc
  | f :: rest, acc =>
    match P.kubernetes repository f services with
    | .error e => .error (.parseError e)
    | .ok objs => parseKubernetesFiles P repository services rest (acc ++ objs)

/-- Lines 56–69: the `if 'kubernetes' in deployment` branch: resolve the
repository, enumerate artifacts matching the glob, parse each. -/
def kubernetesStep (cfg : ApplicationConfig) (repositories : Dict Repository) (P : Parsers)
    (services : Dict Service) : Except AggErr (List ApplicationObject) :=
  match cfg.kubernetesDeployment with
  | none => .ok []
  | some kubernetes_config =>
    match Dict.get? repositories kubernetes_config.repository with
    | none => .error (.unknownRepository kubernetes_config.repository)
    | some repository =>
      parseKubernetesFiles P repository services
        (repository.get_artifacts_by_regex kubernetes_config.glob) []

/-- Lines 89–91 / 104–106: `if service.properties is not None:
obj.service_properties = dict(service.properties)` (by value; the
copy-vs-alias aspect of `dict(...)` is modelled separately on the heap
model below). -/
def attachProperties (properties : Option Props) (obj : ApplicationObject) : ApplicationObject :=
  match properties with
  | none => obj
  | some props => {obj with service_properties := some props}

/-- Lines 79–96: the `if 'dockerfile' in service_data` branch: parse, attach
the property snapshot to every produced object, and when at least one
object was produced record the first as the service's descriptor. -/
def dockerBranch (P : Parsers) (repository : Repository) (sd : ServiceData)
    (service : Service) : Except AggErr (List ApplicationObject × Service) :=
  match sd.dockerfile with
  | none => .ok ([], service)
  | some dockerfilePath =>
    let image_name := sd.image.getD ""
    match P.dockerfile repository dockerfilePath image_name with
    | .error e => .error (.parseError e)
    | .ok dockerfile_objects =>
      match dockerfile_objects.map (attachProperties service.properties) with
      | [] => .ok ([], service)
      | first :: rest => .ok (first :: rest, {service with dockerfile := some first})

/-- Lines 98–111: the `if 'openapi' in service_data` branch, analogous to
the dockerfile branch; note it records the first object into the same
`service.dockerfile` field (overwriting a Dockerfile descriptor). -/
def openapiBranch (P : Parsers) (repository : Repository) (sd : ServiceData)
    (service : Service) : Except AggErr (List ApplicationObject × Service) :=
  match sd.openapi with
  | none => .ok ([], service)
  | some openapi_path =>
    match P.openapi repository openapi_path with
    | .error e => .error (.parseError e)
    | .ok openapi_objects =>
      match openapi_objects.map (attachProperties service.properties) with
      | [] => .ok ([], service)
      | first :: rest => .ok (first :: rest, {service with dockerfile := some first})

/-- One iteration of the `for service_data in config_services` loop body
(lines 74–111) acting on the looked-up `Service`: dockerfile branch then
openapi branch.  On a raise, the error carries the service as already
mutated (Python mutations are not rolled back). -/
def stepService (P : Parsers) (repository : Repository) (sd : ServiceData)
    (service : Service) :
    Except (AggErr × Service) (List ApplicationObject × List ApplicationObject × Service) :=
  match dockerBranch P repository sd service with
  | .error e => .error (e, service)
  | .ok (newDockerfiles, service1) =>
    match openapiBranch P repository sd service1 with
    | .error e => .error (e, service1)
    | .ok (newOpenapis, service2) => .ok (newDockerfiles, newOpenapis, service2)

/-- Lines 72–111: the whole per-service loop, accumulating the
`dockerfiles` and `openapis` candidate lists and threading the services
dict (Python mutates the aliased `Service` objects in place; here the
updated entry is written back).  The repository lookup precedes the
service lookup, as in the source. -/
def processServices (repositories : Dict Repository) (P : Parsers) :
    List ServiceData → Dict Service → List ApplicationObject → List ApplicationObject →
    Except (AggErr × Dict Service)
      (List ApplicationObject × List ApplicationObject × Dict Service)
  | [], services, dockerfiles, openapis => .ok (dockerfiles, openapis, services)
  | sd :: rest, services, dockerfiles, openapis =>
    match Dict.get? repositories sd.repository with
    | none => .error (.unknownRepository sd.repository, services)
    | some repository =>
      match Dict.get? services sd.name with
      | none => .error (.unknownService sd.name, services)
      | some service =>
        match stepService P repository sd service with
        | .error (e, s1) => .error (e, Dict.set services sd.name s1)
        | .ok (newDockerfiles, newOpenapis, s2) =>
          processServices repositories P rest (Dict.set services sd.name s2)
            (dockerfiles ++ newDockerfiles) (openapis ++ newOpenapis)

/-- Lines 113–125: one deduplication loop (`for spec in ...: if spec.path
not in seen: seen.add(spec.path); application_objects.append(spec)`),
appending the survivors to the accumulated objects list. -/
def dedupLoop : List ApplicationObject → List String → List ApplicationObject →
    List String × List ApplicationObject
  | [], seen, acc => (seen, acc)
  | spec :: rest, seen, acc =>
    if spec.path ∈ seen then dedupLoop rest seen acc
    else dedupLoop rest (seen ++ [spec.path]) (acc ++ [spec])

/-- The survivors a deduplication loop started with an empty seen set and
an empty accumulator would append: the first occurrence of each path. -/
def dedupByPath (objs : List ApplicationObject) : List ApplicationObject :=
  (dedupLoop objs [] []).2

/-- `Application.parse_application` (lines 37–133).  The config, the
repositories dict (`self.repositories`, set by `aquire_application`) and
the parser oracles are explicit arguments.  An uncaught Python exception
is an `Except.error` carrying the exception and the `self` state at the
raise point; normal return yields the updated `self`. -/
def Application.parse_application (cfg : ApplicationConfig) (repositories : Dict Repository)
    (P : Parsers) (self : Application) : Except (AggErr × Application) Application :=
  let services1 := registerServices cfg.services self.services
  match applyProperties cfg.properties services1 with
  | .error (e, servicesE) => .error (e, {self with services := servicesE})
  | .ok services2 =>
    match kubernetesStep cfg repositories P services2 with
    | .error e => .error (e, {self with services := services2})
    | .ok kubernetes_objects =>
      match processServices repositories P cfg.services services2 [] [] with
      | .error (e, services3) => .error (e, {self with services := services3})
      | .ok (dockerfiles, openapis, services3) =>
        let afterDockerfiles := (dedupLoop dockerfiles [] kubernetes_objects).2
        let afterOpenapis := (dedupLoop openapis [] afterDockerfiles).2
        .ok {self with services := services3, application_objects := afterOpenapis}

/-- `Application.get_service` (lines 135–138): `if service_name in
self.services: return self.services[service_name]; return None`.  It is a
pure read: it returns an `Option Service` and no updated state. -/
def Application.get_service (self : Application) (service_name : String) : Option Service :=
  match Dict.get? self.services service_name with
  | some s => some s
  | none => none

/-- `Application.load_kubernetes_cluster_config` (lines 140–149).  The
external `config.load_kube_config()` call is an oracle boolean
(`true` = it returns, `false` = it raises).  The method catches every
exception, so it is a total function returning the updated state and the
emitted log lines (the final info line is outside the `try` and runs on
both paths, as in the source). -/
def Application.load_kubernetes_cluster_config (load_kube_config_succeeds : Bool)
    (self : Application) : Application × List String :=
  if load_kube_config_succeeds then
    (self,
     ["Trying to load the kubernetes cluster config",
      "Successfully loaded kubernetes cluster config"])
  else
    ({self with run_dynamic := false},
     ["Trying to load the kubernetes cluster config",
      "failed to load kubernetes config, ignoring dynamic analyses",
      "Successfully loaded kubernetes cluster config"])

/-- Modelled from the spec: one registered analysis of the
`AnalysisScheduler` (`k8spurifier/scheduler.py` and
`k8spurifier/analysis.py` are not under `src/`).  An analysis declares a
required capability (static or dynamic) and an invocation that either
produces an `AnalysisResult` or fails. -/
structure Analysis where
  analysis_name : String
  requires_dynamic : Bool
  runOn : List ApplicationObject → Except String AnalysisResult

/-- The eligibility-and-invocation step for one registered analysis:
skipped when its required capability flag is off; otherwise invoked, a
failure contributing no result. -/
def schedulerStep (application_objects : List ApplicationObject)
    (run_static run_dynamic : Bool) (acc : List AnalysisResult) (a : Analysis) :
    List AnalysisResult :=
  if (if a.requires_dynamic then run_dynamic else run_static) then
    match a.runOn application_objects with
    | .ok result => acc ++ [result]
    | .error _ => acc
  else acc

/-- Modelled from the spec: `AnalysisScheduler.run_analyses(run_static,
run_dynamic)` (§4.2 of the design; `k8spurifier/scheduler.py` is not under
`src/`): every registered analysis whose required capability is enabled is
invoked in registration order; the results of the successful ones are
concatenated, skipped and failed analyses contribute nothing. -/
def AnalysisScheduler.run_analyses (analyses : List Analysis)
    (application_objects : List ApplicationObject)
    (run_static run_dynamic : Bool) : List AnalysisResult :=
  analyses.foldl (schedulerStep application_objects run_static run_dynamic) []

/-- `Application.run_analyses` (lines 151–155): build the scheduler over
`self.application_objects` and store the results. -/
def Application.run_analyses (analyses : List Analysis) (self : Application) : Application :=
  {self with analysis_results :=
    (AnalysisScheduler.run_analyses analyses self.application_objects
      self.run_static self.run_dynamic)}

/-! ## A heap model for the property snapshot (claim about aliasing)

The pure embedding above passes property mappings by value, which cannot
distinguish `obj.service_properties = dict(service.properties)` (a copy)
from `obj.service_properties = service.properties` (an alias).  To settle
the aliasing claim, the snapshot-attachment loop (lines 89–91 / 104–106)
is embedded once more over an explicit heap of Python dict cells:
`service.properties` is a reference into the heap, and `dict(...)`
allocates a fresh cell holding the current contents of the referenced
cell. -/

/-- A heap of Python dict cells; an address is an index into `cells`. -/
structure Heap where
  cells : List Props
deriving DecidableEq, Repr

/-- Read the dict stored at an address. -/
def Heap.read (h : Heap) (a : Nat) : Props :=
  h.cells.getD a []

/-- Allocate a fresh dict cell (what Python's `dict(...)` constructor
does), returning the new heap and the fresh address. -/
def Heap.alloc (h : Heap) (v : Props) : Heap × Nat :=
  (⟨h.cells ++ [v]⟩, h.cells.length)

/-- Overwrite the dict at an address (mutating a live mapping in place,
or rebinding it wholesale). -/
def Heap.write (h : Heap) (a : Nat) (v : Props) : Heap :=
  ⟨h.cells.set a v⟩

/-- An `ApplicationObject` in the heap model: its property snapshot is a
reference to a heap cell. -/
structure HeapApplicationObject where
  path : String
  service_properties : Option Nat := none
deriving DecidableEq, Repr

/-- Lines 89–93 / 104–108 over the heap model: `for obj in objects: if
service.properties is not None: obj.service_properties =
dict(service.properties)` — each attachment allocates a fresh copy of the
cell currently referenced by the service's property mapping. -/
def attachSnapshots : Heap → Option Nat → List HeapApplicationObject →
    Heap × List HeapApplicationObject
  | h, _, [] => (h, [])
  | h, none, obj :: rest =>
    let (h2, rest2) := attachSnapshots h none rest
    (h2, obj :: rest2)
  | h, some r, obj :: rest =>
    let (h1, a) := Heap.alloc h (Heap.read h r)
    let (h2, rest2) := attachSnapshots h1 (some r) rest
    (h2, {obj with service_properties := some a} :: rest2)

/-! ## Concrete example inputs (used by the witness theorems) -/

/-- A repository whose glob lookup knows one Kubernetes manifest. -/
def exRepo : Repository :=
  ⟨fun g => if g = "k8s/*.yaml" then ["k8s/orders-deploy.yaml"] else []⟩

/-- The repositories dict of the example application. -/
def exRepositories : Dict Repository := [("main", exRepo)]

/-- Example parsers: each returns a single object carrying the artifact
path it was invoked on. -/
def exParsers : Parsers where
  kubernetes := fun _ f _ => .ok [{path := f}]
  dockerfile := fun _ p _ => .ok [{path := p}]
  openapi := fun _ p => .ok [{path := p}]

/-- Example parsers whose Dockerfile parser always raises. -/
def exFailParsers : Parsers where
  kubernetes := fun _ f _ => .ok [{path := f}]
  dockerfile := fun _ _ _ => .error "unparsable Dockerfile"
  openapi := fun _ p => .ok [{path := p}]

/-- The `orders` service: declares a Dockerfile, an OpenAPI spec and an
image name. -/
def exOrders : ServiceData :=
  {name := "orders", repository := "main", dockerfile := some "orders/Dockerfile",
   openapi := some "orders/openapi.yaml", image := some "orders-image"}

/-- The `billing` service: declares a Dockerfile with the same artifact
path as `orders` (a duplicate for the deduplication claims) and an OpenAPI
spec sharing that same path (to exercise category independence). -/
def exBilling : ServiceData :=
  {name := "billing", repository := "main", dockerfile := some "orders/Dockerfile",
   openapi := some "orders/Dockerfile"}

/-- The example config: a Kubernetes deployment source, two services, one
property mapping for `orders`. -/
def exConfig : ApplicationConfig :=
  {kubernetesDeployment := some {repository := "main", glob := "k8s/*.yaml"},
   services := [exOrders, exBilling],
   properties := [("orders", [("language", "python")])]}

/-- A config whose properties section names an undeclared service. -/
def exBadConfig : ApplicationConfig :=
  {services := [exOrders],
   properties := [("ghost", [("language", "python")])]}

/-- A freshly constructed application state (`Application.__init__`). -/
def exApplication : Application := {}

/-- The successful example aggregation result. -/
def exResult : Application :=
  match Application.parse_application exConfig exRepositories exParsers exApplication with
  | .ok st => st
  | .error e => e.2

/-- The state carried by the failing example aggregation (failing
Dockerfile parser). -/
def exFailResult : Application :=
  match Application.parse_application exConfig exRepositories exFailParsers exApplication with
  | .ok st => st
  | .error e => e.2

/-- The state carried by the bad-config example aggregation. -/
def exBadResult : Application :=
  match Application.parse_application exBadConfig exRepositories exParsers exApplication with
  | .ok st => st
  | .error e => e.2

/-- Example parsers whose OpenAPI parser parses successfully but produces
no objects. -/
def exEmptyOpenapiParsers : Parsers where
  kubernetes := fun _ f _ => .ok [{path := f}]
  dockerfile := fun _ p _ => .ok [{path := p}]
  openapi := fun _ _ => .ok []

/-- The aggregation result under the empty-OpenAPI parsers. -/
def exEmptyOpenapiResult : Application :=
  match Application.parse_application exConfig exRepositories exEmptyOpenapiParsers
      exApplication with
  | .ok st => st
  | .error e => e.2

/-- An application state with one registered service, for the lookup
example. -/
def exLookupApplication : Application :=
  {services := [("orders", {name := "orders"})]}

/-- A one-cell heap: address 0 holds a service's live property mapping. -/
def exHeap : Heap := ⟨[[("language", "python")]]⟩

/-- One parsed object, not yet carrying a snapshot. -/
def exHeapObjects : List HeapApplicationObject := [{path := "orders/Dockerfile"}]

/-! ## Dictionary lemmas -/

theorem Dict.get?_set_self {α : Type} (d : Dict α) (k : String) (v : α) :
    Dict.get? (Dict.set d k v) k = some v := by
  induction d with
  | nil => simp [Dict.set, Dict.get?]
  | cons hd tl ih =>
    obtain ⟨k2, v2⟩ := hd
    by_cases h : k2 = k
    · simp [Dict.set, h, Dict.get?]
    · simp [Dict.set, h, Dict.get?, ih]

theorem Dict.get?_set_ne {α : Type} (d : Dict α) (k key : String) (v : α) (h : key ≠ k) :
    Dict.get? (Dict.set d k v) key = Dict.get? d key := by
  induction d with
  | nil => simp [Dict.set, Dict.get?, Ne.symm h]
  | cons hd tl ih =>
    obtain ⟨k2, v2⟩ := hd
    by_cases h2 : k2 = k
    · subst h2
      simp [Dict.set, Dict.get?, Ne.symm h]
    · simp [Dict.set, h2, Dict.get?, ih]

theorem Dict.get?_eq_none_iff {α : Type} (d : Dict α) (k : String) :
    Dict.get? d k = none ↔ k ∉ d.map Prod.fst := by
  induction d with
  | nil => simp [Dict.get?]
  | cons hd tl ih =>
    obtain ⟨k2, v2⟩ := hd
    by_cases h : k2 = k
    · simp [Dict.get?, h]
    · simp [Dict.get?, h, ih, Ne.symm h]

theorem Dict.get?_of_mem_of_nodup {α : Type} (d : Dict α) (k : String) (v : α)
    (hnd : (d.map Prod.fst).Nodup) (hmem : (k, v) ∈ d) :
    Dict.get? d k = some v := by
  induction d with
  | nil => simp at hmem
  | cons hd tl ih =>
    obtain ⟨k2, v2⟩ := hd
    simp only [List.map_cons, List.nodup_cons] at hnd
    rcases List.mem_cons.mp hmem with h | h
    · cases h
      simp [Dict.get?]
    · have hk : k2 ≠ k := by
        intro he
        exact hnd.1 (by rw [he]; exact List.mem_map.mpr ⟨(k, v), h, rfl⟩)
      simp [Dict.get?, hk, ih hnd.2 h]

/-! ## Service registration and property application lemmas -/

theorem registerServices_get_not_mem (sds : List ServiceData) (svs : Dict Service)
    (n : String) (h : n ∉ sds.map ServiceData.name) :
    Dict.get? (registerServices sds svs) n = Dict.get? svs n := by
  induction sds generalizing svs with
  | nil => rfl
  | cons sd rest ih =>
    simp only [List.map_cons, List.mem_cons, not_or] at h
    rw [registerServices, ih _ h.2, Dict.get?_set_ne _ _ _ _ h.1]

theorem registerServices_get_mem (sds : List ServiceData) (svs : Dict Service)
    (n : String) (h : n ∈ sds.map ServiceData.name) :
    Dict.get? (registerServices sds svs) n = some {name := n} := by
  induction sds generalizing svs with
  | nil => simp at h
  | cons sd rest ih =>
    rw [registerServices]
    by_cases hr : n ∈ rest.map ServiceData.name
    · exact ih _ hr
    · simp only [List.map_cons, List.mem_cons] at h
      have hn : n = sd.name := by tauto
      subst hn
      rw [registerServices_get_not_mem _ _ _ hr, Dict.get?_set_self]

theorem applyProperties_preserves (ps : List (String × Props)) (svs svs2 : Dict Service)
    (h : applyProperties ps svs = .ok svs2) (n : String) (s : Service)
    (hs : Dict.get? svs n = some s) :
    ∃ t, Dict.get? svs2 n = some t ∧ t.name = s.name ∧ t.dockerfile = s.dockerfile := by
  induction ps generalizing svs s with
  | nil =>
    simp only [applyProperties] at h
    cases h
    exact ⟨s, hs, rfl, rfl⟩
  | cons p rest ih =>
    obtain ⟨m, q⟩ := p
    rw [applyProperties] at h
    cases hm : Dict.get? svs m with
    | none => rw [hm] at h; cases h
    | some sm =>
      rw [hm] at h
      by_cases hnm : n = m
      · subst hnm
        rw [hs] at hm
        cases hm
        have hs2 : Dict.get? (Dict.set svs n {s with properties := some q}) n =
            some {s with properties := some q} := Dict.get?_set_self _ _ _
        obtain ⟨t, ht, hname, hdock⟩ := ih _ h _ hs2
        exact ⟨t, ht, hname, hdock⟩
      · have hs2 : Dict.get? (Dict.set svs m {sm with properties := some q}) n = some s := by
          rw [Dict.get?_set_ne _ _ _ _ hnm, hs]
        exact ih _ h _ hs2

theorem applyProperties_error_of_missing (ps : List (String × Props)) (svs : Dict Service)
    (n : String) (q : Props) (hmem : (n, q) ∈ ps) (hn : Dict.get? svs n = none) :
    ∃ m svsE, applyProperties ps svs = .error (.unknownService m, svsE) ∧
      Dict.get? svs m = none := by
  induction ps generalizing svs with
  | nil => simp at hmem
  | cons p rest ih =>
    obtain ⟨m0, q0⟩ := p
    rw [applyProperties]
    cases hm0 : Dict.get? svs m0 with
    | none => exact ⟨m0, svs, rfl, hm0⟩
    | some sm0 =>
      have hne : n ≠ m0 := by
        intro he
        subst he
        rw [hn] at hm0
        cases hm0
      have hmem2 : (n, q) ∈ rest := by
        rcases List.mem_cons.mp hmem with h | h
        · cases h; exact absurd rfl hne
        · exact h
      have hn2 : Dict.get? (Dict.set svs m0 {sm0 with properties := some q0}) n = none := by
        rw [Dict.get?_set_ne _ _ _ _ hne, hn]
      obtain ⟨m, svsE, hrun, hget⟩ := ih _ hmem2 hn2
      refine ⟨m, svsE, hrun, ?_⟩
      by_cases hmm : m = m0
      · subst hmm
        rw [Dict.get?_set_self] at hget
        cases hget
      · rw [Dict.get?_set_ne _ _ _ _ hmm] at hget
        exact hget

/-! ## Deduplication lemmas -/

theorem dedupLoop_acc (l : List ApplicationObject) (seen : List String)
    (acc : List ApplicationObject) :
    (dedupLoop l seen acc).2 = acc ++ (dedupLoop l seen []).2 := by
  induction l generalizing seen acc with
  | nil => simp [dedupLoop]
  | cons x rest ih =>
    by_cases hx : x.path ∈ seen
    · simp only [dedupLoop, if_pos hx]
      exact ih _ _
    · simp only [dedupLoop, if_neg hx]
      rw [ih _ (acc ++ [x]), ih _ ([] ++ [x])]
      simp

theorem dedupLoop_filter (l : List ApplicationObject) (seen : List String) (p : String) :
    ((dedupLoop l seen []).2.filter (fun o => o.path = p)) =
      if p ∈ seen then [] else (l.find? (fun o => o.path = p)).toList := by
  induction l generalizing seen with
  | nil =>
    simp [dedupLoop]
  | cons x rest ih =>
    by_cases hx : x.path ∈ seen
    · rw [dedupLoop, if_pos hx, ih]
      by_cases hp : p ∈ seen
      · simp [hp]
      · have hxp : ¬(x.path = p) := fun he => hp (he ▸ hx)
        simp [hp, List.find?, hxp]
    · rw [dedupLoop, if_neg hx, dedupLoop_acc, List.filter_append, ih]
      by_cases hp : p ∈ seen
      · have hxp : ¬(x.path = p) := fun he => hx (he ▸ hp)
        simp [hp, List.find?, hxp, List.mem_append]
      · by_cases hxp : x.path = p
        · simp [List.find?, hxp, hp, List.mem_append]
        · simp [List.find?, hxp, hp, List.mem_append, Ne.symm hxp]

theorem dedupLoop_paths_nodup (l : List ApplicationObject) (seen : List String) :
    ((dedupLoop l seen []).2.map ApplicationObject.path).Nodup ∧
      ∀ o ∈ (dedupLoop l seen []).2, o.path ∉ seen := by
  induction l generalizing seen with
  | nil => simp [dedupLoop]
  | cons x rest ih =>
    by_cases hx : x.path ∈ seen
    · rw [dedupLoop, if_pos hx]
      exact ih seen
    · rw [dedupLoop, if_neg hx, dedupLoop_acc]
      obtain ⟨ihn, ihs⟩ := ih (seen ++ [x.path])
      constructor
      · simp only [List.map_append, List.map_cons, List.map_nil, List.nil_append,
          List.singleton_append, List.nodup_cons]
        refine ⟨?_, ihn⟩
        intro hmem
        obtain ⟨o, ho, hop⟩ := List.mem_map.mp hmem
        exact ihs o ho (by rw [hop]; simp)
      · intro o ho
        rcases List.mem_append.mp ho with h | h
        · simp only [List.nil_append, List.mem_singleton] at h
          rw [h]
          exact hx
        · intro hseen
          exact ihs o h (List.mem_append.mpr (Or.inl hseen))

theorem dedupByPath_filter (l : List ApplicationObject) (p : String) :
    (dedupByPath l).filter (fun o => o.path = p) = (l.find? (fun o => o.path = p)).toList := by
  rw [dedupByPath, dedupLoop_filter]
  simp

theorem dedupByPath_paths_nodup (l : List ApplicationObject) :
    ((dedupByPath l).map ApplicationObject.path).Nodup :=
  (dedupLoop_paths_nodup l []).1

/-! ## Kubernetes parsing lemmas -/

theorem parseKubernetesFiles_flatten (P : Parsers) (repository : Repository)
    (services : Dict Service) (outs : String → List ApplicationObject)
    (files : List String) (acc : List ApplicationObject)
    (h : ∀ f ∈ files, P.kubernetes repository f services = .ok (outs f)) :
    parseKubernetesFiles P repository services files acc =
      .ok (acc ++ files.flatMap outs) := by
  induction files generalizing acc with
  | nil => simp [parseKubernetesFiles]
  | cons f rest ih =>
    rw [parseKubernetesFiles, h f (List.mem_cons_self _ _)]
    show parseKubernetesFiles P repository services rest (acc ++ outs f) = _
    rw [ih _ (fun g hg => h g (List.mem_cons_of_mem _ hg))]
    simp

/-! ## Per-service loop lemmas -/

theorem processServices_frame (repositories : Dict Repository) (P : Parsers)
    (sds : List ServiceData) (svs : Dict Service)
    (dfs oas dfs2 oas2 : List ApplicationObject) (svs2 : Dict Service)
    (h : processServices repositories P sds svs dfs oas = .ok (dfs2, oas2, svs2))
    (n : String) (hn : n ∉ sds.map ServiceData.name) :
    Dict.get? svs2 n = Dict.get? svs n := by
  induction sds generalizing svs dfs oas with
  | nil =>
    rw [processServices] at h
    cases h
    rfl
  | cons sd rest ih =>
    simp only [List.map_cons, List.mem_cons, not_or] at hn
    cases hrep : Dict.get? repositories sd.repository with
    | none => simp [processServices, hrep] at h
    | some repository =>
      cases hsv : Dict.get? svs sd.name with
      | none => simp [processServices, hrep, hsv] at h
      | some service =>
        cases hstep : stepService P repository sd service with
        | error e =>
          obtain ⟨e1, s1⟩ := e
          simp [processServices, hrep, hsv, hstep] at h
        | ok res =>
          obtain ⟨newDfs, newOas, s2⟩ := res
          simp only [processServices, hrep, hsv, hstep] at h
          rw [ih _ _ _ h hn.2]
          exact Dict.get?_set_ne _ _ _ _ hn.1

theorem processServices_get (repositories : Dict Repository) (P : Parsers)
    (sds : List ServiceData) (svs : Dict Service)
    (dfs oas dfs2 oas2 : List ApplicationObject) (svs2 : Dict Service)
    (h : processServices repositories P sds svs dfs oas = .ok (dfs2, oas2, svs2))
    (hnd : (sds.map ServiceData.name).Nodup)
    (sd : ServiceData) (hmem : sd ∈ sds)
    (repository : Repository) (hrepo : Dict.get? repositories sd.repository = some repository)
    (s0 : Service) (hs0 : Dict.get? svs sd.name = some s0) :
    ∃ newDfs newOas s1, stepService P repository sd s0 = .ok (newDfs, newOas, s1) ∧
      Dict.get? svs2 sd.name = some s1 := by
  induction sds generalizing svs dfs oas with
  | nil => simp at hmem
  | cons sd0 rest ih =>
    simp only [List.map_cons, List.nodup_cons] at hnd
    rcases List.mem_cons.mp hmem with he | hr
    · subst he
      cases hstep : stepService P repository sd s0 with
      | error e =>
        obtain ⟨e1, s1⟩ := e
        simp [processServices, hrepo, hs0, hstep] at h
      | ok res =>
        obtain ⟨newDfs, newOas, s1⟩ := res
        simp only [processServices, hrepo, hs0, hstep] at h
        refine ⟨newDfs, newOas, s1, rfl, ?_⟩
        rw [processServices_frame _ _ _ _ _ _ _ _ _ h sd.name hnd.1]
        exact Dict.get?_set_self _ _ _
    · cases hrep0 : Dict.get? repositories sd0.repository with
      | none => simp [processServices, hrep0] at h
      | some repository0 =>
        cases hsv0 : Dict.get? svs sd0.name with
        | none => simp [processServices, hrep0, hsv0] at h
        | some service0 =>
          cases hstep0 : stepService P repository0 sd0 service0 with
          | error e =>
            obtain ⟨e1, s1⟩ := e
            simp [processServices, hrep0, hsv0, hstep0] at h
          | ok res =>
            obtain ⟨newDfs0, newOas0, s20⟩ := res
            simp only [processServices, hrep0, hsv0, hstep0] at h
            have hname : sd.name ≠ sd0.name := by
              intro he
              exact hnd.1 (by rw [← he]; exact List.mem_map.mpr ⟨sd, hr, rfl⟩)
            have hs0b : Dict.get? (Dict.set svs sd0.name s20) sd.name = some s0 := by
              rw [Dict.get?_set_ne _ _ _ _ hname]
              exact hs0
            exact ih _ _ _ h hnd.2 hr hs0b

/-! ## Decomposition of a successful aggregation run -/

theorem parse_application_ok (cfg : ApplicationConfig) (repositories : Dict Repository)
    (P : Parsers) (self st1 : Application)
    (h : Application.parse_application cfg repositories P self = .ok st1) :
    ∃ services2 kubernetes_objects dockerfiles openapis services3,
      applyProperties cfg.properties (registerServices cfg.services self.services) =
        .ok services2 ∧
      kubernetesStep cfg repositories P services2 = .ok kubernetes_objects ∧
      processServices repositories P cfg.services services2 [] [] =
        .ok (dockerfiles, openapis, services3) ∧
      st1.services = services3 ∧
      st1.application_objects =
        kubernetes_objects ++ dedupByPath dockerfiles ++ dedupByPath openapis := by
  cases hap : applyProperties cfg.properties (registerServices cfg.services self.services) with
  | error e =>
    obtain ⟨e1, servicesE⟩ := e
    simp [Application.parse_application, hap] at h
  | ok services2 =>
    cases hk : kubernetesStep cfg repositories P services2 with
    | error e => simp [Application.parse_application, hap, hk] at h
    | ok kubernetes_objects =>
      cases hpr : processServices repositories P cfg.services services2 [] [] with
      | error e =>
        obtain ⟨e1, services3⟩ := e
        simp [Application.parse_application, hap, hk, hpr] at h
      | ok res =>
        obtain ⟨dockerfiles, openapis, services3⟩ := res
        simp only [Application.parse_application, hap, hk, hpr] at h
        injection h with h
        subst h
        refine ⟨services2, kubernetes_objects, dockerfiles, openapis, services3,
          rfl, hk, hpr, rfl, ?_⟩
        show (dedupLoop openapis [] (dedupLoop dockerfiles [] kubernetes_objects).2).2 = _
        rw [dedupLoop_acc openapis, dedupLoop_acc dockerfiles]
        rw [dedupByPath, dedupByPath, List.append_assoc]

/-- The fate of one declared service across a successful `parse_application`
run: its freshly registered entry (descriptor `none`) flows through
property application and its own iteration of the per-service loop, and no
other iteration touches it. -/
theorem parse_application_service (cfg : ApplicationConfig) (repositories : Dict Repository)
    (P : Parsers) (self st1 : Application)
    (h : Application.parse_application cfg repositories P self = .ok st1)
    (hnd : (cfg.services.map ServiceData.name).Nodup)
    (sd : ServiceData) (hmem : sd ∈ cfg.services)
    (repository : Repository) (hrepo : Dict.get? repositories sd.repository = some repository) :
    ∃ s0 newDfs newOas s1, s0.dockerfile = none ∧
      stepService P repository sd s0 = .ok (newDfs, newOas, s1) ∧
      Dict.get? st1.services sd.name = some s1 := by
  obtain ⟨services2, kubernetes_objects, dockerfiles, openapis, services3,
    hap, hk, hpr, hsvs, hobjs⟩ := parse_application_ok cfg repositories P self st1 h
  have hreg : Dict.get? (registerServices cfg.services self.services) sd.name =
      some {name := sd.name} :=
    registerServices_get_mem _ _ _ (List.mem_map.mpr ⟨sd, hmem, rfl⟩)
  obtain ⟨s0, hs0, hname0, hdock0⟩ :=
    applyProperties_preserves _ _ _ hap sd.name {name := sd.name} hreg
  obtain ⟨newDfs, newOas, s1, hstep, hs1⟩ :=
    processServices_get _ _ _ _ _ _ _ _ _ hpr hnd sd hmem repository hrepo s0 hs0
  exact ⟨s0, newDfs, newOas, s1, hdock0, hstep, by rw [hsvs]; exact hs1⟩

/-! ## Evaluating the per-service step under parser hypotheses -/

theorem stepService_docker_openapi (P : Parsers) (repository : Repository) (sd : ServiceData)
    (s0 : Service) (dp op : String) (d o : ApplicationObject)
    (ds os : List ApplicationObject)
    (hdf : sd.dockerfile = some dp)
    (hdp : P.dockerfile repository dp (sd.image.getD "") = .ok (d :: ds))
    (hoa : sd.openapi = some op)
    (hop : P.openapi repository op = .ok (o :: os)) :
    stepService P repository sd s0 =
      .ok ((d :: ds).map (attachProperties s0.properties),
        (o :: os).map (attachProperties s0.properties),
        {s0 with dockerfile := some (attachProperties s0.properties o)}) := by
  simp [stepService, dockerBranch, openapiBranch, hdf, hdp, hoa, hop]

theorem stepService_docker_openapi_empty (P : Parsers) (repository : Repository)
    (sd : ServiceData) (s0 : Service) (dp op : String) (d : ApplicationObject)
    (ds : List ApplicationObject)
    (hdf : sd.dockerfile = some dp)
    (hdp : P.dockerfile repository dp (sd.image.getD "") = .ok (d :: ds))
    (hoa : sd.openapi = some op)
    (hop : P.openapi repository op = .ok ([] : List ApplicationObject)) :
    stepService P repository sd s0 =
      .ok ((d :: ds).map (attachProperties s0.properties), ([] : List ApplicationObject),
        {s0 with dockerfile := some (attachProperties s0.properties d)}) := by
  simp [stepService, dockerBranch, openapiBranch, hdf, hdp, hoa, hop]

theorem stepService_docker_empty (P : Parsers) (repository : Repository)
    (sd : ServiceData) (s0 : Service) (dp : String)
    (hdf : sd.dockerfile = some dp)
    (hdp : P.dockerfile repository dp (sd.image.getD "") = .ok ([] : List ApplicationObject))
    (hoa : sd.openapi = none) :
    stepService P repository sd s0 =
      .ok (([] : List ApplicationObject), ([] : List ApplicationObject), s0) := by
  simp [stepService, dockerBranch, openapiBranch, hdf, hdp, hoa]

/-! ## Heap lemmas -/

theorem Heap.read_append (h : Heap) (v : Props) (a : Nat) (ha : a < h.cells.length) :
    Heap.read ⟨h.cells ++ [v]⟩ a = Heap.read h a := by
  rw [Heap.read, Heap.read, List.getD_eq_getElem?_getD, List.getD_eq_getElem?_getD,
    List.getElem?_append_left ha]

theorem Heap.read_append_self (h : Heap) (v : Props) :
    Heap.read ⟨h.cells ++ [v]⟩ h.cells.length = v := by
  rw [Heap.read, List.getD_eq_getElem?_getD, List.getElem?_append_right (le_refl _)]
  simp

theorem Heap.read_write_ne (h : Heap) (r a : Nat) (v : Props) (hne : a ≠ r) :
    Heap.read (Heap.write h r v) a = Heap.read h a := by
  rw [Heap.write, Heap.read, Heap.read, List.getD_eq_getElem?_getD,
    List.getD_eq_getElem?_getD]
  rw [List.getElem?_set_ne (Ne.symm hne)]

theorem attachSnapshots_invariant (objs : List HeapApplicationObject) (h : Heap) (r : Nat)
    (hr : r < h.cells.length) :
    h.cells.length ≤ (attachSnapshots h (some r) objs).1.cells.length ∧
    (∀ a, a < h.cells.length →
      Heap.read (attachSnapshots h (some r) objs).1 a = Heap.read h a) ∧
    (∀ obj ∈ (attachSnapshots h (some r) objs).2, ∀ a,
      obj.service_properties = some a →
      r < a ∧ a < (attachSnapshots h (some r) objs).1.cells.length ∧
      Heap.read (attachSnapshots h (some r) objs).1 a = Heap.read h r) := by
  induction objs generalizing h with
  | nil => simp [attachSnapshots]
  | cons obj rest ih =>
    rcases hatt : attachSnapshots ⟨h.cells ++ [Heap.read h r]⟩ (some r) rest with ⟨H2, rest2⟩
    have hr1 : r < (Heap.mk (h.cells ++ [Heap.read h r])).cells.length := by
      simp only [List.length_append, List.length_cons, List.length_nil]
      omega
    obtain ⟨hlen, hpres, hobjs⟩ := ih _ hr1
    rw [hatt] at hlen hpres hobjs
    simp only [List.length_append, List.length_cons, List.length_nil] at hlen
    simp only [attachSnapshots, Heap.alloc, hatt]
    refine ⟨by omega, ?_, ?_⟩
    · intro a ha
      rw [hpres a (by simp; omega)]
      exact Heap.read_append h _ a ha
    · intro o ho a hsp
      rcases List.mem_cons.mp ho with he | hmem2
      · rw [he] at hsp
        simp only at hsp
        cases hsp
        refine ⟨hr, by omega, ?_⟩
        rw [hpres h.cells.length (by simp)]
        exact Heap.read_append_self h _
      · obtain ⟨h1a, h2a, h3a⟩ := hobjs o hmem2 a hsp
        refine ⟨?_, h2a, ?_⟩
        · omega
        · rw [h3a]
          exact Heap.read_append h _ r hr

/-! ## Claim theorems -/

/-- C1: for every aggregation run, within each deduplication category
separately (Dockerfile-derived and OpenAPI-derived objects), the final
object graph contains exactly one object per distinct artifact path —
namely the first one encountered in service-declaration order (the order
of the `dockerfiles` / `openapis` candidate lists); duplicates by path are
dropped.  The two per-path characterizations are each stated purely in
terms of the own category's candidate list, so the two seen-path sets are
independent: a path occurring in the other category never suppresses an
object. -/
theorem dedup_per_category (cfg : ApplicationConfig) (repositories : Dict Repository)
    (P : Parsers) (self st1 : Application)
    (h : Application.parse_application cfg repositories P self = .ok st1) :
    ∃ kubernetes_objects dockerfiles openapis services2 services3,
      applyProperties cfg.properties (registerServices cfg.services self.services) =
        .ok services2 ∧
      processServices repositories P cfg.services services2 [] [] =
        .ok (dockerfiles, openapis, services3) ∧
      st1.application_objects =
        kubernetes_objects ++ dedupByPath dockerfiles ++ dedupByPath openapis ∧
      ((dedupByPath dockerfiles).map ApplicationObject.path).Nodup ∧
      ((dedupByPath openapis).map ApplicationObject.path).Nodup ∧
      (∀ p, (dedupByPath dockerfiles).filter (fun o => o.path = p) =
        (dockerfiles.find? (fun o => o.path = p)).toList) ∧
      (∀ p, (dedupByPath openapis).filter (fun o => o.path = p) =
        (openapis.find? (fun o => o.path = p)).toList) := by
  obtain ⟨services2, kube, dfs, oas, services3, hap, hk, hpr, hsvs, hobjs⟩ :=
    parse_application_ok cfg repositories P self st1 h
  exact ⟨kube, dfs, oas, services2, services3, hap, hpr, hobjs,
    dedupByPath_paths_nodup dfs, dedupByPath_paths_nodup oas,
    fun p => dedupByPath_filter dfs p, fun p => dedupByPath_filter oas p⟩

/-- Witness for C1: the example run (two services sharing the Dockerfile
path `orders/Dockerfile`, one OpenAPI object reusing that same path)
satisfies the hypothesis and hence the conclusion. -/
theorem dedup_per_category_witness :
    ∃ kubernetes_objects dockerfiles openapis services2 services3,
      applyProperties exConfig.properties
        (registerServices exConfig.services exApplication.services) = .ok services2 ∧
      processServices exRepositories exParsers exConfig.services services2 [] [] =
        .ok (dockerfiles, openapis, services3) ∧
      exResult.application_objects =
        kubernetes_objects ++ dedupByPath dockerfiles ++ dedupByPath openapis ∧
      ((dedupByPath dockerfiles).map ApplicationObject.path).Nodup ∧
      ((dedupByPath openapis).map ApplicationObject.path).Nodup ∧
      (∀ p, (dedupByPath dockerfiles).filter (fun o => o.path = p) =
        (dockerfiles.find? (fun o => o.path = p)).toList) ∧
      (∀ p, (dedupByPath openapis).filter (fun o => o.path = p) =
        (openapis.find? (fun o => o.path = p)).toList) :=
  dedup_per_category exConfig exRepositories exParsers exApplication exResult rfl

/-- C2: for every service declaring both a Dockerfile and an OpenAPI
artifact, when both parsers produce at least one object, the service's
final descriptor (the `dockerfile` field of its registry entry) is the
first object produced by the OpenAPI parser (with the property snapshot
attached): the OpenAPI descriptor overwrites the Dockerfile one. -/
theorem openapi_overwrites_descriptor (cfg : ApplicationConfig)
    (repositories : Dict Repository) (P : Parsers) (self st1 : Application)
    (sd : ServiceData) (repository : Repository) (dp op : String)
    (d o : ApplicationObject) (ds os : List ApplicationObject)
    (h : Application.parse_application cfg repositories P self = .ok st1)
    (hnd : (cfg.services.map ServiceData.name).Nodup)
    (hmem : sd ∈ cfg.services)
    (hrepo : Dict.get? repositories sd.repository = some repository)
    (hdf : sd.dockerfile = some dp)
    (hdp : P.dockerfile repository dp (sd.image.getD "") = .ok (d :: ds))
    (hoa : sd.openapi = some op)
    (hop : P.openapi repository op = .ok (o :: os)) :
    ∃ s1, Dict.get? st1.services sd.name = some s1 ∧
      s1.dockerfile = some (attachProperties s1.properties o) := by
  obtain ⟨s0, newDfs, newOas, s1, hdock0, hstep, hs1⟩ :=
    parse_application_service cfg repositories P self st1 h hnd sd hmem repository hrepo
  rw [stepService_docker_openapi P repository sd s0 dp op d o ds os hdf hdp hoa hop] at hstep
  injection hstep with hstep
  simp only [Prod.mk.injEq] at hstep
  obtain ⟨h1, h2, h3⟩ := hstep
  refine ⟨s1, hs1, ?_⟩
  rw [← h3]

/-- Witness for C2: in the example run, the `orders` service declares both
artifacts, both parsers produce one object, and the final descriptor is
the OpenAPI object with the property snapshot attached. -/
theorem openapi_overwrites_descriptor_witness :
    ∃ s1, Dict.get? exResult.services exOrders.name = some s1 ∧
      s1.dockerfile = some (attachProperties s1.properties {path := "orders/openapi.yaml"}) :=
  openapi_overwrites_descriptor exConfig exRepositories exParsers exApplication exResult
    exOrders exRepo "orders/Dockerfile" "orders/openapi.yaml"
    {path := "orders/Dockerfile"} {path := "orders/openapi.yaml"} [] []
    rfl (by decide) (by decide) rfl rfl rfl rfl rfl

/-- C3: the final graph is the concatenation, in this order, of the
Kubernetes-parser objects (appended without deduplication, in
file-enumeration order — witnessed by the `flatMap` equation), then the
deduplicated Dockerfile-derived objects, then the deduplicated
OpenAPI-derived objects. -/
theorem graph_concatenation_order (cfg : ApplicationConfig)
    (repositories : Dict Repository) (P : Parsers) (self st1 : Application)
    (h : Application.parse_application cfg repositories P self = .ok st1) :
    ∃ services2 kubernetes_objects dockerfiles openapis services3,
      applyProperties cfg.properties (registerServices cfg.services self.services) =
        .ok services2 ∧
      kubernetesStep cfg repositories P services2 = .ok kubernetes_objects ∧
      processServices repositories P cfg.services services2 [] [] =
        .ok (dockerfiles, openapis, services3) ∧
      st1.application_objects =
        kubernetes_objects ++ dedupByPath dockerfiles ++ dedupByPath openapis ∧
      (∀ kc repository outs, cfg.kubernetesDeployment = some kc →
        Dict.get? repositories kc.repository = some repository →
        (∀ f ∈ repository.get_artifacts_by_regex kc.glob,
          P.kubernetes repository f services2 = .ok (outs f)) →
        kubernetes_objects = (repository.get_artifacts_by_regex kc.glob).flatMap outs) := by
  obtain ⟨services2, kube, dfs, oas, services3, hap, hk, hpr, hsvs, hobjs⟩ :=
    parse_application_ok cfg repositories P self st1 h
  refine ⟨services2, kube, dfs, oas, services3, hap, hk, hpr, hobjs, ?_⟩
  intro kc repository outs hkc hrepo houts
  simp only [kubernetesStep, hkc, hrepo] at hk
  rw [parseKubernetesFiles_flatten P repository services2 outs
    (repository.get_artifacts_by_regex kc.glob) [] houts] at hk
  injection hk with hk
  rw [← hk]
  simp

/-- Witness for C3: the example run has a Kubernetes deployment source
matching one manifest, so the hypothesis holds and the decomposition is
realized. -/
theorem graph_concatenation_order_witness :
    ∃ services2 kubernetes_objects dockerfiles openapis services3,
      applyProperties exConfig.properties
        (registerServices exConfig.services exApplication.services) = .ok services2 ∧
      kubernetesStep exConfig exRepositories exParsers services2 = .ok kubernetes_objects ∧
      processServices exRepositories exParsers exConfig.services services2 [] [] =
        .ok (dockerfiles, openapis, services3) ∧
      exResult.application_objects =
        kubernetes_objects ++ dedupByPath dockerfiles ++ dedupByPath openapis ∧
      (∀ kc repository outs, exConfig.kubernetesDeployment = some kc →
        Dict.get? exRepositories kc.repository = some repository →
        (∀ f ∈ repository.get_artifacts_by_regex kc.glob,
          exParsers.kubernetes repository f services2 = .ok (outs f)) →
        kubernetes_objects = (repository.get_artifacts_by_regex kc.glob).flatMap outs) :=
  graph_concatenation_order exConfig exRepositories exParsers exApplication exResult rfl

/-- C4: in the heap model of the snapshot-attachment loop, every object
that received a service-property snapshot holds a fresh cell whose
contents are the service's mapping as of attach time, and overwriting the
service's live mapping afterwards (`Heap.write` at its reference) leaves
every attached snapshot cell unchanged: the snapshot is a copy, never an
alias. -/
theorem snapshot_isolated_from_live_properties (h : Heap) (r : Nat)
    (objs : List HeapApplicationObject) (v : Props) (hr : r < h.cells.length) :
    ∀ obj ∈ (attachSnapshots h (some r) objs).2, ∀ a,
      obj.service_properties = some a →
      Heap.read (attachSnapshots h (some r) objs).1 a = Heap.read h r ∧
      Heap.read (Heap.write (attachSnapshots h (some r) objs).1 r v) a =
        Heap.read (attachSnapshots h (some r) objs).1 a := by
  obtain ⟨hlen, hpres, hobjs⟩ := attachSnapshots_invariant objs h r hr
  intro obj ho a hsp
  obtain ⟨hra, halen, hread⟩ := hobjs obj ho a hsp
  exact ⟨hread, Heap.read_write_ne _ _ _ _ (by omega)⟩

/-- Witness for C4: a valid one-cell heap with one attached object, whose
snapshot lands in the fresh cell at address 1 and survives an overwrite of
the live mapping at address 0. -/
theorem snapshot_isolated_from_live_properties_witness :
    Heap.read (attachSnapshots exHeap (some 0) exHeapObjects).1 1 = Heap.read exHeap 0 ∧
    Heap.read (Heap.write (attachSnapshots exHeap (some 0) exHeapObjects).1 0
        [("language", "go")]) 1 =
      Heap.read (attachSnapshots exHeap (some 0) exHeapObjects).1 1 :=
  snapshot_isolated_from_live_properties exHeap 0 exHeapObjects
    [("language", "go")] (by decide)
    {path := "orders/Dockerfile", service_properties := some 1} (by decide) 1 rfl

/-- C5: if `parse_application` raises (any parser failure, or a failed
repository/service lookup), the error propagates to the caller and the
application's object-graph field (`application_objects`) retains the value
it had before the call: no partial graph is stored. -/
theorem error_preserves_application_objects (cfg : ApplicationConfig)
    (repositories : Dict Repository) (P : Parsers) (self : Application)
    (e : AggErr) (st2 : Application)
    (h : Application.parse_application cfg repositories P self = .error (e, st2)) :
    st2.application_objects = self.application_objects := by
  cases hap : applyProperties cfg.properties (registerServices cfg.services self.services) with
  | error e0 =>
    obtain ⟨e1, servicesE⟩ := e0
    simp only [Application.parse_application, hap] at h
    injection h with h
    exact (congrArg (fun t => t.2.application_objects) h).symm
  | ok services2 =>
    cases hk : kubernetesStep cfg repositories P services2 with
    | error e0 =>
      simp only [Application.parse_application, hap, hk] at h
      injection h with h
      exact (congrArg (fun t => t.2.application_objects) h).symm
    | ok kube =>
      cases hpr : processServices repositories P cfg.services services2 [] [] with
      | error e0 =>
        obtain ⟨e1, services3⟩ := e0
        simp only [Application.parse_application, hap, hk, hpr] at h
        injection h with h
        exact (congrArg (fun t => t.2.application_objects) h).symm
      | ok res =>
        obtain ⟨dfs, oas, services3⟩ := res
        simp [Application.parse_application, hap, hk, hpr] at h

/-- Witness for C5: with a Dockerfile parser that raises, the whole
aggregation fails with that parse error and the stored object graph is
unchanged (still the initial empty list). -/
theorem error_preserves_application_objects_witness :
    Application.parse_application exConfig exRepositories exFailParsers exApplication =
      .error (.parseError "unparsable Dockerfile", exFailResult) ∧
    exFailResult.application_objects = exApplication.application_objects :=
  ⟨rfl, error_preserves_application_objects exConfig exRepositories exFailParsers
    exApplication (.parseError "unparsable Dockerfile") exFailResult rfl⟩

/-- C6: `load_kubernetes_cluster_config` is a total function (the bare
`except Exception` catches every failure of the external loader): on
failure it logs the warning and sets `run_dynamic := false`; `run_static`
is never touched; on success the state is returned unchanged (so
`run_dynamic` in particular is unchanged). -/
theorem load_cluster_config_never_raises (load_kube_config_succeeds : Bool)
    (self : Application) :
    (Application.load_kubernetes_cluster_config load_kube_config_succeeds self).1.run_static =
      self.run_static ∧
    (load_kube_config_succeeds = false →
      (Application.load_kubernetes_cluster_config load_kube_config_succeeds
        self).1.run_dynamic = false ∧
      "failed to load kubernetes config, ignoring dynamic analyses" ∈
        (Application.load_kubernetes_cluster_config load_kube_config_succeeds self).2) ∧
    (load_kube_config_succeeds = true →
      (Application.load_kubernetes_cluster_config load_kube_config_succeeds self).1 = self) := by
  cases load_kube_config_succeeds <;>
    simp [Application.load_kubernetes_cluster_config]

/-- Witness for C6: the failing-loader case on a fresh application. -/
theorem load_cluster_config_never_raises_witness :
    (Application.load_kubernetes_cluster_config false {}).1.run_static =
      ({} : Application).run_static ∧
    (false = false →
      (Application.load_kubernetes_cluster_config false {}).1.run_dynamic = false ∧
      "failed to load kubernetes config, ignoring dynamic analyses" ∈
        (Application.load_kubernetes_cluster_config false {}).2) ∧
    (false = true →
      (Application.load_kubernetes_cluster_config false {}).1 = ({} : Application)) :=
  load_cluster_config_never_raises false {}

/-- C7: starting from a fresh application state, if the properties section
names a service that the services section does not declare, the whole
aggregation fails with an unknown-service lookup error (the `KeyError` on
`self.services[service]`, the design's `UnknownServiceError`) — by
construction of `AggErr` distinct from any parse error — and the reported
name is itself undeclared. -/
theorem undeclared_property_service_errors (cfg : ApplicationConfig)
    (repositories : Dict Repository) (P : Parsers) (self : Application)
    (n : String) (q : Props)
    (hself : self.services = [])
    (hmem : (n, q) ∈ cfg.properties)
    (hn : n ∉ cfg.services.map ServiceData.name) :
    ∃ m st2, Application.parse_application cfg repositories P self =
        .error (.unknownService m, st2) ∧
      m ∉ cfg.services.map ServiceData.name := by
  have hn1 : Dict.get? (registerServices cfg.services self.services) n = none := by
    rw [registerServices_get_not_mem _ _ _ hn, hself]
    rfl
  obtain ⟨m, svsE, herr, hm⟩ :=
    applyProperties_error_of_missing cfg.properties _ n q hmem hn1
  refine ⟨m, {self with services := svsE}, ?_, ?_⟩
  · simp only [Application.parse_application, herr]
  · intro hmem2
    rw [registerServices_get_mem _ _ _ hmem2] at hm
    cases hm

/-- Witness for C7: the bad example config declares a property mapping for
the undeclared service `ghost`. -/
theorem undeclared_property_service_errors_witness :
    ∃ m st2, Application.parse_application exBadConfig exRepositories exParsers
        exApplication = .error (.unknownService m, st2) ∧
      m ∉ exBadConfig.services.map ServiceData.name :=
  undeclared_property_service_errors exBadConfig exRepositories exParsers exApplication
    "ghost" [("language", "python")] rfl (by decide) (by decide)

/-- Folding a step function that fixes the accumulator leaves the initial
accumulator unchanged. -/
theorem foldl_const_of_step_id {α β : Type} (f : α → β → α) (hf : ∀ acc b, f acc b = acc) :
    ∀ (l : List β) (acc : α), l.foldl f acc = acc
  | [], _ => rfl
  | b :: l, acc => by rw [List.foldl_cons, hf, foldl_const_of_step_id f hf l acc]

/-- With both capability flags false, every analysis is skipped. -/
theorem schedulerStep_flags_false (application_objects : List ApplicationObject)
    (acc : List AnalysisResult) (a : Analysis) :
    schedulerStep application_objects false false acc a = acc := by
  rw [schedulerStep]
  cases a.requires_dynamic <;> simp

/-- C8 (scheduler modelled from the spec): invoking the scheduler with
both the static-enabled and dynamic-enabled flags false returns the empty
result sequence without error, for every object graph and every analysis
registry (in particular non-empty ones). -/
theorem scheduler_both_flags_false_empty (analyses : List Analysis)
    (application_objects : List ApplicationObject) :
    AnalysisScheduler.run_analyses analyses application_objects false false = [] := by
  rw [AnalysisScheduler.run_analyses]
  exact foldl_const_of_step_id _ (schedulerStep_flags_false application_objects) analyses []

/-- C9: a successful parse that produces no objects records no descriptor:
if the OpenAPI parser returns an empty list the service's descriptor keeps
the Dockerfile descriptor recorded just before (first conjunct), and if
the Dockerfile parser returns an empty list (and no OpenAPI artifact is
declared) the descriptor stays `none` (second conjunct). -/
theorem empty_parse_keeps_descriptor (cfg : ApplicationConfig)
    (repositories : Dict Repository) (P : Parsers) (self st1 : Application)
    (sd : ServiceData) (repository : Repository)
    (h : Application.parse_application cfg repositories P self = .ok st1)
    (hnd : (cfg.services.map ServiceData.name).Nodup)
    (hmem : sd ∈ cfg.services)
    (hrepo : Dict.get? repositories sd.repository = some repository) :
    (∀ dp op d ds, sd.dockerfile = some dp →
      P.dockerfile repository dp (sd.image.getD "") = .ok (d :: ds) →
      sd.openapi = some op →
      P.openapi repository op = .ok ([] : List ApplicationObject) →
      ∃ s1, Dict.get? st1.services sd.name = some s1 ∧
        s1.dockerfile = some (attachProperties s1.properties d)) ∧
    (∀ dp, sd.dockerfile = some dp →
      P.dockerfile repository dp (sd.image.getD "") = .ok ([] : List ApplicationObject) →
      sd.openapi = none →
      ∃ s1, Dict.get? st1.services sd.name = some s1 ∧ s1.dockerfile = none) := by
  obtain ⟨s0, newDfs, newOas, s1, hdock0, hstep, hs1⟩ :=
    parse_application_service cfg repositories P self st1 h hnd sd hmem repository hrepo
  constructor
  · intro dp op d ds hdf hdp hoa hop
    rw [stepService_docker_openapi_empty P repository sd s0 dp op d ds hdf hdp hoa hop]
      at hstep
    injection hstep with hstep
    simp only [Prod.mk.injEq] at hstep
    obtain ⟨h1, h2, h3⟩ := hstep
    refine ⟨s1, hs1, ?_⟩
    rw [← h3]
  · intro dp hdf hdp hoa
    rw [stepService_docker_empty P repository sd s0 dp hdf hdp hoa] at hstep
    injection hstep with hstep
    simp only [Prod.mk.injEq] at hstep
    obtain ⟨h1, h2, h3⟩ := hstep
    refine ⟨s1, hs1, ?_⟩
    rw [← h3]
    exact hdock0

/-- Witness for C9: the example run with an OpenAPI parser that always
returns an empty object list; the hypotheses hold for the `orders`
service. -/
theorem empty_parse_keeps_descriptor_witness :
    (∀ dp op d ds, exOrders.dockerfile = some dp →
      exEmptyOpenapiParsers.dockerfile exRepo dp (exOrders.image.getD "") = .ok (d :: ds) →
      exOrders.openapi = some op →
      exEmptyOpenapiParsers.openapi exRepo op = .ok ([] : List ApplicationObject) →
      ∃ s1, Dict.get? exEmptyOpenapiResult.services exOrders.name = some s1 ∧
        s1.dockerfile = some (attachProperties s1.properties d)) ∧
    (∀ dp, exOrders.dockerfile = some dp →
      exEmptyOpenapiParsers.dockerfile exRepo dp (exOrders.image.getD "") =
        .ok ([] : List ApplicationObject) →
      exOrders.openapi = none →
      ∃ s1, Dict.get? exEmptyOpenapiResult.services exOrders.name = some s1 ∧
        s1.dockerfile = none) :=
  empty_parse_keeps_descriptor exConfig exRepositories exEmptyOpenapiParsers exApplication
    exEmptyOpenapiResult exOrders exRepo rfl (by decide) (by decide) rfl

/-- C10: `get_service` returns `none` exactly when the name is absent from
the service registry, and returns the registered entry for a present name;
it is embedded as a pure read (it returns no updated state), matching the
source, which only performs dictionary lookups. -/
theorem get_service_lookup (self : Application) (service_name : String)
    (hnd : (self.services.map Prod.fst).Nodup) :
    (Application.get_service self service_name = none ↔
      service_name ∉ self.services.map Prod.fst) ∧
    (∀ s, (service_name, s) ∈ self.services →
      Application.get_service self service_name = some s) := by
  have hgs : Application.get_service self service_name =
      Dict.get? self.services service_name := by
    rw [Application.get_service]
    cases Dict.get? self.services service_name <;> rfl
  constructor
  · rw [hgs]
    exact Dict.get?_eq_none_iff _ _
  · intro s hsmem
    rw [hgs]
    exact Dict.get?_of_mem_of_nodup _ _ _ hnd hsmem

/-- Witness for C10: a registry holding exactly the `orders` service. -/
theorem get_service_lookup_witness :
    (Application.get_service exLookupApplication "orders" = none ↔
      "orders" ∉ exLookupApplication.services.map Prod.fst) ∧
    (∀ s, ("orders", s) ∈ exLookupApplication.services →
      Application.get_service exLookupApplication "orders" = some s) :=
  get_service_lookup exLookupApplication "orders" (by decide)

end KubeHound
